import Mathlib

/-!
Shallow embedding of `src/main.py` (tj7982/IP-Forwarding).

The program builds a routing table from setup lines of the form
`<port>, <ipv4>[/<plen>]` and forwards each candidate address to the port
of the longest-prefix matching entry.  Python strings are modelled as
`List Char`; Python ints as `Int`/`Nat`; raised exceptions as `Option`
(`none` = the call raises) or `Except` where the failure kind matters.
-/

namespace IPFwd

/-- Python `str.split(sep)` for a single-character separator: splits on every
occurrence of `sep`; the result is never empty; empty fields are kept. -/
def pySplit (sep : Char) : List Char → List (List Char)
  | [] => [[]]
  | c :: rest =>
    let r := pySplit sep rest
    if c = sep then [] :: r
    else
      match r with
      | [] => [[c]]
      | g :: gs => (c :: g) :: gs

/-- Python `str.strip()` with no argument: drops leading and trailing
whitespace. -/
def pyStrip (s : List Char) : List Char :=
  ((s.dropWhile Char.isWhitespace).reverse.dropWhile Char.isWhitespace).reverse

/-- Value of a string of decimal digits (helper for `pyInt`). -/
def digitsVal (s : List Char) : Nat :=
  s.foldl (fun a c => a * 10 + (c.toNat - 48)) 0

/-- Python `int(s)` on an already-stripped string: optional sign followed by
at least one decimal digit; raises `ValueError` (here `none`) otherwise. -/
def pyInt (s : List Char) : Option Int :=
  match s with
  | '-' :: rest =>
    if rest ≠ [] ∧ rest.all Char.isDigit then some (-(digitsVal rest : Int)) else none
  | '+' :: rest =>
    if rest ≠ [] ∧ rest.all Char.isDigit then some (digitsVal rest : Int) else none
  | _ =>
    if s ≠ [] ∧ s.all Char.isDigit then some (digitsVal s : Int) else none

/-- One dotted-decimal octet as accepted by Python's `ipaddress.IPv4Address`:
one to three decimal digits, no leading zero on a multi-digit octet,
value at most 255. -/
def parse_octet (s : List Char) : Option Nat :=
  if s = [] then none
  else if ¬ (s.all Char.isDigit) then none
  else if 3 < s.length then none
  else if 1 < s.length ∧ s.headD '0' = '0' then none
  else if digitsVal s ≤ 255 then some (digitsVal s) else none

/-- Python `ipaddress.IPv4Address(s)` for a string argument: exactly four
dot-separated octets, yielding the 32-bit integer value of the address. -/
def parse_ipv4 (s : List Char) : Option Nat :=
  match pySplit '.' s with
  | [a, b, c, d] => do
    let a ← parse_octet a
    let b ← parse_octet b
    let c ← parse_octet c
    let d ← parse_octet d
    some (((a * 256 + b) * 256 + c) * 256 + d)
  | _ => none

/-- Python `int(s, 2)` on the nonempty bit string built by
`calc_subnet_mask` (bits listed most significant first). -/
def int_of_binary (bits : List Bool) : Nat :=
  bits.foldl (fun acc b => 2 * acc + (if b then 1 else 0)) 0

/-- `calc_subnet_mask` from `src/main.py` lines 60-73: builds the string
`'1'*plen + '0'*(32-plen)` (Python string repetition with a negative count
yields the empty string), parses it as binary, and converts the integer to
an `IPv4Address` — which raises (`none`) when the value exceeds
`2^32 - 1`.  The bit string is never empty, so `int(s, 2)` itself cannot
raise. -/
def calc_subnet_mask (plen : Int) : Option Nat :=
  let bits := List.replicate plen.toNat true ++ List.replicate (32 - plen).toNat false
  let v := int_of_binary bits
  if v < 2 ^ 32 then some v else none

/-- One row of the routing table built by `read_setup_file`: the dict
`{"Port": int, "IP Address": str, "Prefix": int, "Subnet Mask": IPv4Address}`.
The `IP Address` field is stored in the source as the canonical dotted
string `format(ip_address)`; since `calc_dest_port` only ever compares it
through `ip_interface`, which parses it back to the same 32-bit value, it
is modelled here by that value.  Masks are modelled by their 32-bit
values. -/
structure Entry where
  port : Int
  ip : Nat
  prefixLen : Int
  mask : Nat
  deriving DecidableEq

/-- Processing of one line of the setup file (`read_setup_file` loop body,
`src/main.py` lines 34-55): split on `,` (fewer than two fields raises
`IndexError`), strip and split the second field on `/`, parse the address
part, default the prefix to 32 unless the `/`-split has exactly two parts,
compute the mask, and parse the port.  Any raise aborts the whole read
(`none`). -/
def parse_line (line : List Char) : Option Entry :=
  match pySplit ',' line with
  | p0 :: p1 :: _ =>
    (parse_ipv4 (pyStrip ((pySplit '/' (pyStrip p1)).headD []))).bind fun ip =>
    (if (pySplit '/' (pyStrip p1)).length ≠ 2 then some (32 : Int)
     else pyInt (pyStrip ((pySplit '/' (pyStrip p1)).getD 1 []))).bind fun plen =>
    (calc_subnet_mask plen).bind fun mask =>
    (pyInt (pyStrip p0)).bind fun port =>
    some ⟨port, ip, plen, mask⟩
  | _ => none

/-- `read_setup_file` from `src/main.py` lines 24-58, over the list of
lines of the setup file: builds the table in source order; an exception on
any line aborts construction. -/
def read_setup_file : List (List Char) → Option (List Entry)
  | [] => some []
  | line :: rest =>
    (parse_line line).bind fun e =>
    (read_setup_file rest).bind fun t =>
    some (e :: t)

/-- `apply_subnet_mask` from `src/main.py` lines 104-113: bitwise AND of
the address and mask values.  The re-wrap into `IPv4Address` cannot raise,
since `AND` of two values below `2^32` stays below `2^32`. -/
def apply_subnet_mask (ip mask : Nat) : Nat :=
  ip &&& mask

/-- The match-collection loop of `calc_dest_port` (`src/main.py` lines
85-92): keeps, in table order, every route whose mask applied to the given
address yields the route's stored (unmasked) `IP Address` value.  The
source compares `ip_interface(masked) == ip_interface(route["IP Address"])`;
both sides are `/32` interfaces, so the comparison is equality of the
32-bit address values. -/
def matching_routes (routing_table : List Entry) (given_ip : Nat) : List Entry :=
  routing_table.filter (fun route => apply_subnet_mask given_ip route.mask == route.ip)

/-- Failure kinds for resolution.  The source only ever raises `IndexError`
(from `matches[0]` on an empty match list); `noMatchingRoute` is the
structured failure named by the specification and is included so that
statements can distinguish the two. -/
inductive RouteFailure where
  | noMatchingRoute
  | indexError
  deriving DecidableEq

instance {ε α : Type} [DecidableEq ε] [DecidableEq α] : DecidableEq (Except ε α) := fun x y =>
  match x, y with
  | Except.ok a, Except.ok b => decidable_of_iff (a = b) (by simp)
  | Except.error a, Except.error b => decidable_of_iff (a = b) (by simp)
  | Except.ok _, Except.error _ => isFalse (by simp)
  | Except.error _, Except.ok _ => isFalse (by simp)

/-- Body of the longest-prefix scan in `calc_dest_port` (lines 96-98):
replace the current best entry when the next match has a strictly greater
prefix. -/
def pick_longer (longest m : Entry) : Entry :=
  if m.prefixLen > longest.prefixLen then m else longest

/-- `calc_dest_port` from `src/main.py` lines 77-100: collect the matches,
take `matches[0]` (raising `IndexError` when there are none), scan all
matches keeping the first entry of strictly greatest prefix, and return
its port. -/
def calc_dest_port (routing_table : List Entry) (given_ip : Nat) : Except RouteFailure Int :=
  match matching_routes routing_table given_ip with
  | [] => Except.error RouteFailure.indexError
  | m0 :: rest => Except.ok (List.foldl pick_longer m0 (m0 :: rest)).port

/-- The forwarding loop of `main` (`src/main.py` lines 135-137): resolve
each candidate in order; an exception raised for one candidate propagates
and aborts the whole loop, so the ports of later candidates are never
produced. -/
def forward_ips (routing_table : List Entry) : List Nat → Except RouteFailure (List Int)
  | [] => Except.ok []
  | ip :: rest =>
    match calc_dest_port routing_table ip with
    | Except.error e => Except.error e
    | Except.ok port =>
      match forward_ips routing_table rest with
      | Except.error e => Except.error e
      | Except.ok ports => Except.ok (port :: ports)

/-- Modelled from the spec: `computeMask`'s contract value
`(0xFFFFFFFF << (32 - p)) & 0xFFFFFFFF` — `p` one-bits followed by
`(32 - p)` zero-bits — for comparison with `calc_subnet_mask`. -/
def standardMask (p : Nat) : Nat :=
  (0xFFFFFFFF <<< (32 - p)) &&& 0xFFFFFFFF

/-! ### Helper lemmas -/

/-- Folding the binary-digit accumulator over a run of zero bits multiplies
the accumulator by `2 ^ n`. -/
lemma foldl_bin_false (n acc : Nat) :
    List.foldl (fun acc b => 2 * acc + (if b then 1 else 0)) acc (List.replicate n false)
      = acc * 2 ^ n := by
  induction n generalizing acc with
  | zero => simp
  | succ k ih =>
    rw [List.replicate_succ, List.foldl_cons, ih]
    simp only [Bool.false_eq_true, if_false]
    rw [pow_succ]
    ring

/-- Folding the binary-digit accumulator over a run of one bits yields
`acc * 2 ^ n + (2 ^ n - 1)`. -/
lemma foldl_bin_true (n acc : Nat) :
    List.foldl (fun acc b => 2 * acc + (if b then 1 else 0)) acc (List.replicate n true)
      = acc * 2 ^ n + (2 ^ n - 1) := by
  induction n generalizing acc with
  | zero => simp
  | succ k ih =>
    rw [List.replicate_succ, List.foldl_cons, ih]
    norm_num
    have h1 : 1 ≤ 2 ^ k := Nat.one_le_two_pow
    have h2 : (2 : Nat) ^ (k + 1) = 2 * 2 ^ k := by rw [pow_succ]; ring
    have h3 : (2 * acc + 1) * 2 ^ k = acc * 2 ^ (k + 1) + 2 ^ k := by rw [h2]; ring
    omega

/-- For a negative prefix, `calc_subnet_mask` builds a string of zeros and
returns the zero mask. -/
lemma calc_subnet_mask_neg (p : Int) (hp : p < 0) : calc_subnet_mask p = some 0 := by
  have h0 : p.toNat = 0 := Int.toNat_eq_zero.mpr (le_of_lt hp)
  simp only [calc_subnet_mask, h0, List.replicate_zero, List.nil_append, int_of_binary,
    foldl_bin_false]
  norm_num

/-- For a prefix above 32, `calc_subnet_mask` builds a string of at least 33
ones, whose value exceeds `2^32 - 1`, so the `IPv4Address` conversion
raises. -/
lemma calc_subnet_mask_gt (p : Int) (hp : 32 < p) : calc_subnet_mask p = none := by
  have h0 : (32 - p).toNat = 0 := Int.toNat_eq_zero.mpr (by omega)
  have h33 : 33 ≤ p.toNat := by omega
  have hpow : 2 ^ 33 ≤ 2 ^ p.toNat := Nat.pow_le_pow_right (by norm_num) h33
  have hval : ¬ (int_of_binary (List.replicate p.toNat true ++ List.replicate (32 - p).toNat false)
      < 2 ^ 32) := by
    rw [h0]
    simp only [List.replicate_zero, List.append_nil, int_of_binary, foldl_bin_true]
    have h233 : (2 : Nat) ^ 33 = 2 * 2 ^ 32 := by norm_num
    omega
  simp only [calc_subnet_mask]
  rw [if_neg hval]

/-- For every prefix in `[0, 32]`, `calc_subnet_mask` returns the contract
mask value (exhaustive check over the 33 cases). -/
lemma calc_subnet_mask_ball : ∀ n : Nat, n < 33 → calc_subnet_mask (n : Int) = some (standardMask n) := by
  decide

/-- `calc_subnet_mask` agrees with the spec's `computeMask` formula on
`[0, 32]`. -/
lemma calc_subnet_mask_eq_standard (p : Int) (h0 : 0 ≤ p) (h32 : p ≤ 32) :
    calc_subnet_mask p = some (standardMask p.toNat) := by
  have := calc_subnet_mask_ball p.toNat (by omega)
  rwa [Int.toNat_of_nonneg h0] at this

/-- Every mask `calc_subnet_mask` can return is a contiguous-ones CIDR
mask for some prefix in `[0, 32]`. -/
lemma calc_subnet_mask_shape (p : Int) (m : Nat) (h : calc_subnet_mask p = some m) :
    ∃ n, n ≤ 32 ∧ m = standardMask n := by
  rcases lt_trichotomy p 0 with hneg | hzero | hpos
  · rw [calc_subnet_mask_neg p hneg] at h
    refine ⟨0, by omega, ?_⟩
    have : standardMask 0 = 0 := by decide
    simp only [Option.some.injEq] at h
    omega
  · subst hzero
    rw [calc_subnet_mask_eq_standard 0 le_rfl (by norm_num)] at h
    exact ⟨0, by omega, by simpa using h.symm⟩
  · by_cases h32 : p ≤ 32
    · rw [calc_subnet_mask_eq_standard p (le_of_lt hpos) h32] at h
      exact ⟨p.toNat, by omega, by simpa using h.symm⟩
    · rw [calc_subnet_mask_gt p (by omega)] at h
      exact absurd h (by simp)

/-- Membership in the collected match list is membership in the table
together with the source's (unmasked right-hand side) match condition. -/
lemma mem_matching_routes (t : List Entry) (c : Nat) (e : Entry) :
    e ∈ matching_routes t c ↔ e ∈ t ∧ apply_subnet_mask c e.mask = e.ip := by
  simp [matching_routes, List.mem_filter]

/-- With an empty match list, `calc_dest_port` raises `IndexError` at
`matches[0]`. -/
lemma calc_dest_port_nil (t : List Entry) (c : Nat) (h : matching_routes t c = []) :
    calc_dest_port t c = Except.error RouteFailure.indexError := by
  simp [calc_dest_port, h]

/-- The scan result dominates the prefix of the seed and of every scanned
entry. -/
lemma pick_longer_le (l : List Entry) : ∀ (best : Entry), ∀ x ∈ best :: l,
    x.prefixLen ≤ (List.foldl pick_longer best l).prefixLen := by
  induction l with
  | nil =>
    intro best x hx
    simp only [List.mem_singleton] at hx
    simp [hx]
  | cons m rest ih =>
    intro best x hx
    rw [List.foldl_cons]
    have hb : best.prefixLen ≤ (pick_longer best m).prefixLen := by
      simp only [pick_longer]
      split <;> omega
    have hm : m.prefixLen ≤ (pick_longer best m).prefixLen := by
      simp only [pick_longer]
      split <;> omega
    have hhead := ih (pick_longer best m) (pick_longer best m) (List.mem_cons_self _ _)
    rcases List.mem_cons.mp hx with hxb | hx2
    · subst hxb
      exact le_trans hb hhead
    · rcases List.mem_cons.mp hx2 with hxm | hxr
      · subst hxm
        exact le_trans hm hhead
      · exact ih (pick_longer best m) x (List.mem_cons_of_mem _ hxr)

/-- The scan result is an occurrence in `best :: l` strictly preceded only
by entries of strictly smaller prefix: the scan keeps the first entry
attaining the maximum. -/
lemma pick_longer_first (l : List Entry) : ∀ (best : Entry), ∃ l1 l2,
    best :: l = l1 ++ (List.foldl pick_longer best l) :: l2 ∧
    ∀ x ∈ l1, x.prefixLen < (List.foldl pick_longer best l).prefixLen := by
  induction l with
  | nil =>
    intro best
    exact ⟨[], [], rfl, by simp⟩
  | cons m rest ih =>
    intro best
    rw [List.foldl_cons]
    by_cases hlt : m.prefixLen > best.prefixLen
    · have hpm : pick_longer best m = m := if_pos hlt
      rw [hpm]
      obtain ⟨l1, l2, hsplit, hall⟩ := ih m
      refine ⟨best :: l1, l2, ?_, ?_⟩
      · rw [List.cons_append, ← hsplit]
      · intro x hx
        rcases List.mem_cons.mp hx with hxb | hx1
        · have hmle := pick_longer_le rest m m (List.mem_cons_self _ _)
          subst hxb
          omega
        · exact hall x hx1
    · have hpm : pick_longer best m = best := if_neg hlt
      rw [hpm]
      obtain ⟨l1, l2, hsplit, hall⟩ := ih best
      cases l1 with
      | nil =>
        simp only [List.nil_append, List.cons.injEq] at hsplit
        obtain ⟨hbest, _⟩ := hsplit
        refine ⟨[], m :: rest, ?_, by simp⟩
        simp only [List.nil_append, List.cons.injEq]
        exact ⟨hbest, trivial⟩
      | cons b l1t =>
        simp only [List.cons_append, List.cons.injEq] at hsplit
        obtain ⟨hb, hrest⟩ := hsplit
        have hbestlt : best.prefixLen < (List.foldl pick_longer best rest).prefixLen := by
          have hblt := hall b (List.mem_cons_self _ _)
          rwa [← hb] at hblt
        refine ⟨best :: m :: l1t, l2, ?_, ?_⟩
        · simp only [List.cons_append, List.cons.injEq, true_and]
          exact hrest
        · intro x hx
          rcases List.mem_cons.mp hx with hxb | hx1
          · subst hxb; exact hbestlt
          · rcases List.mem_cons.mp hx1 with hxm | hxt
            · subst hxm; omega
            · exact hall x (List.mem_cons_of_mem _ hxt)

/-- Folding from `matches[0]` over the full match list equals folding over
its tail: the first scan step compares `matches[0]` with itself. -/
lemma foldl_pick_longer_self (m0 : Entry) (rest : List Entry) :
    List.foldl pick_longer m0 (m0 :: rest) = List.foldl pick_longer m0 rest := by
  rw [List.foldl_cons]
  congr 1
  simp [pick_longer]

/-- A successfully parsed setup line carries the mask computed from its own
prefix field. -/
lemma parse_line_mask (line : List Char) (e : Entry) (h : parse_line line = some e) :
    calc_subnet_mask e.prefixLen = some e.mask := by
  unfold parse_line at h
  split at h
  case h_2 => exact absurd h (by simp)
  case h_1 x p0 p1 ps heq =>
    cases hip : parse_ipv4 (pyStrip ((pySplit '/' (pyStrip p1)).headD [])) with
    | none => rw [hip] at h; exact absurd h (by simp)
    | some ip =>
      rw [hip, Option.some_bind] at h
      cases hpl : (if (pySplit '/' (pyStrip p1)).length ≠ 2 then some (32 : Int)
          else pyInt (pyStrip ((pySplit '/' (pyStrip p1)).getD 1 []))) with
      | none => rw [hpl] at h; exact absurd h (by simp)
      | some plen =>
        rw [hpl, Option.some_bind] at h
        cases hmk : calc_subnet_mask plen with
        | none => rw [hmk] at h; exact absurd h (by simp)
        | some mask =>
          rw [hmk, Option.some_bind] at h
          cases hpt : pyInt (pyStrip p0) with
          | none => rw [hpt] at h; exact absurd h (by simp)
          | some port =>
            rw [hpt, Option.some_bind] at h
            simp only [Option.some.injEq] at h
            rw [← h]
            exact hmk

/-- Every entry of a successfully built table comes from some setup line. -/
lemma read_setup_file_mem (lines : List (List Char)) : ∀ (table : List Entry),
    read_setup_file lines = some table → ∀ e ∈ table, ∃ l ∈ lines, parse_line l = some e := by
  induction lines with
  | nil =>
    intro table h e he
    simp only [read_setup_file, Option.some.injEq] at h
    subst h
    exact absurd he (by simp)
  | cons line rest ih =>
    intro table h e he
    rw [read_setup_file] at h
    cases hpl : parse_line line with
    | none => rw [hpl] at h; exact absurd h (by simp)
    | some e0 =>
      rw [hpl, Option.some_bind] at h
      cases hrs : read_setup_file rest with
      | none => rw [hrs] at h; exact absurd h (by simp)
      | some t =>
        rw [hrs, Option.some_bind] at h
        simp only [Option.some.injEq] at h
        subst h
        rcases List.mem_cons.mp he with heq | hmem
        · exact ⟨line, List.mem_cons_self _ _, heq ▸ hpl⟩
        · obtain ⟨l, hl, hpl2⟩ := ih t hrs e hmem
          exact ⟨l, List.mem_cons_of_mem _ hl, hpl2⟩

/-! ### Claim theorems -/

/-- C1 counterexample: with the entry `(port 1, network 10.0.0.1, /8)` and
candidate `10.0.0.1`, candidate and network agree after masking both sides
(the claim's criterion holds and the entry is in the table), yet the code
records no match: it compares the masked candidate against the unmasked
stored network `10.0.0.1`, which differs from the masked value `10.0.0.0`. -/
theorem C1_counterexample :
    apply_subnet_mask 0x0A000001 (Entry.mask ⟨1, 0x0A000001, 8, 0xFF000000⟩)
        = apply_subnet_mask (Entry.ip ⟨1, 0x0A000001, 8, 0xFF000000⟩)
            (Entry.mask ⟨1, 0x0A000001, 8, 0xFF000000⟩) ∧
      (⟨1, 0x0A000001, 8, 0xFF000000⟩ : Entry) ∈ [(⟨1, 0x0A000001, 8, 0xFF000000⟩ : Entry)] ∧
      (⟨1, 0x0A000001, 8, 0xFF000000⟩ : Entry)
        ∉ matching_routes [⟨1, 0x0A000001, 8, 0xFF000000⟩] 0x0A000001 := by
  decide

/-- C1 (amended): the resolver records an entry as a match if and only if
the candidate restricted to the entry's mask equals the entry's stored
network address with no mask applied to the network side; this coincides
with the claimed both-sides-masked criterion exactly when the stored
network has no host bits below its mask. -/
theorem C1_match_criterion (table : List Entry) (candidate : Nat) (e : Entry) :
    e ∈ matching_routes table candidate ↔
      e ∈ table ∧ apply_subnet_mask candidate e.mask = e.ip :=
  mem_matching_routes table candidate e

/-- C1 witness: a canonical `/8` entry is recorded as a match for a
candidate inside its network. -/
theorem C1_match_criterion_witness :
    (⟨1, 0x0A000000, 8, 0xFF000000⟩ : Entry)
      ∈ matching_routes [⟨1, 0x0A000000, 8, 0xFF000000⟩] 0x0A000037 :=
  (C1_match_criterion [⟨1, 0x0A000000, 8, 0xFF000000⟩] 0x0A000037
    ⟨1, 0x0A000000, 8, 0xFF000000⟩).mpr ⟨by decide, by decide⟩

/-- C2: when at least one entry matches, `calc_dest_port` returns the port
of a matching entry whose prefix length is maximal among the matches, and
that entry is the first such entry of the match list (which preserves
table order): every strictly earlier match has a strictly smaller prefix
length. -/
theorem C2_longest_first (table : List Entry) (candidate : Nat) (m0 : Entry)
    (rest : List Entry) (h : matching_routes table candidate = m0 :: rest) :
    ∃ e l1 l2, calc_dest_port table candidate = Except.ok e.port ∧
      matching_routes table candidate = l1 ++ e :: l2 ∧
      (∀ x ∈ matching_routes table candidate, x.prefixLen ≤ e.prefixLen) ∧
      ∀ x ∈ l1, x.prefixLen < e.prefixLen := by
  have hcd : calc_dest_port table candidate
      = Except.ok (List.foldl pick_longer m0 (m0 :: rest)).port := by
    unfold calc_dest_port
    rw [h]
  rw [foldl_pick_longer_self] at hcd
  obtain ⟨l1, l2, hsplit, hall⟩ := pick_longer_first rest m0
  refine ⟨List.foldl pick_longer m0 rest, l1, l2, hcd, ?_, ?_, hall⟩
  · rw [h]
    exact hsplit
  · intro x hx
    rw [h] at hx
    exact pick_longer_le rest m0 x hx

/-- C2 witness: the spec's tie-break scenario — two identical `/24` entries
with ports 1 and 2; resolving a matching candidate selects the
first-listed entry (port 1). -/
theorem C2_longest_first_witness :
    ∃ e l1 l2,
      calc_dest_port [⟨1, 0xC0A80100, 24, 0xFFFFFF00⟩, ⟨2, 0xC0A80100, 24, 0xFFFFFF00⟩]
          0xC0A80105 = Except.ok e.port ∧
        matching_routes [⟨1, 0xC0A80100, 24, 0xFFFFFF00⟩, ⟨2, 0xC0A80100, 24, 0xFFFFFF00⟩]
          0xC0A80105 = l1 ++ e :: l2 ∧
        (∀ x ∈ matching_routes [⟨1, 0xC0A80100, 24, 0xFFFFFF00⟩,
            ⟨2, 0xC0A80100, 24, 0xFFFFFF00⟩] 0xC0A80105, x.prefixLen ≤ e.prefixLen) ∧
        ∀ x ∈ l1, x.prefixLen < e.prefixLen :=
  C2_longest_first _ _ ⟨1, 0xC0A80100, 24, 0xFFFFFF00⟩ [⟨2, 0xC0A80100, 24, 0xFFFFFF00⟩]
    (by decide)

/-- C3: for every prefix length in `[0, 32]`, `calc_subnet_mask` returns
the value `(0xFFFFFFFF <<< (32 - p)) &&& 0xFFFFFFFF` — `p` one-bits
followed by `32 - p` zero-bits. -/
theorem C3_computeMask (p : Int) (h0 : 0 ≤ p) (h32 : p ≤ 32) :
    calc_subnet_mask p = some (standardMask p.toNat) :=
  calc_subnet_mask_eq_standard p h0 h32

/-- C3 witness: the extreme prefixes 0 and 32 yield 0 and `0xFFFFFFFF`. -/
theorem C3_computeMask_witness :
    calc_subnet_mask 0 = some 0 ∧ calc_subnet_mask 32 = some 0xFFFFFFFF :=
  ⟨(C3_computeMask 0 (by norm_num) (by norm_num)).trans (by decide),
   (C3_computeMask 32 (by norm_num) (by norm_num)).trans (by decide)⟩

/-- C4 counterexample: `calc_subnet_mask (-1)` does not fail — the Python
string repetition `'1' * -1` is empty and `'0' * 33` parses to 0, so the
call returns the zero mask, contradicting the claim that every prefix
outside `[0, 32]` fails. -/
theorem C4_counterexample : calc_subnet_mask (-1) = some 0 := by decide

/-- C4 (amended): `calc_subnet_mask` fails for every prefix length above
32 (in particular 33), but for every negative prefix length (in
particular -1) it returns the zero mask instead of failing. -/
theorem C4_out_of_range :
    (∀ p : Int, 32 < p → calc_subnet_mask p = none) ∧
      ∀ p : Int, p < 0 → calc_subnet_mask p = some 0 :=
  ⟨calc_subnet_mask_gt, calc_subnet_mask_neg⟩

/-- C4 witness: the amended behavior at the claim's two sample inputs. -/
theorem C4_out_of_range_witness :
    calc_subnet_mask 33 = none ∧ calc_subnet_mask (-1) = some 0 :=
  ⟨C4_out_of_range.1 33 (by norm_num), C4_out_of_range.2 (-1) (by norm_num)⟩

/-- C5: with zero matches, `calc_dest_port` does not return a port, but the
failure is the uncaught `IndexError` raised by `matches[0]`, not the
structured `NoMatchingRoute` failure the claim requires. -/
theorem C5_no_match (table : List Entry) (candidate : Nat)
    (h : matching_routes table candidate = []) :
    calc_dest_port table candidate = Except.error RouteFailure.indexError :=
  calc_dest_port_nil table candidate h

/-- C5 witness: the spec's no-match scenario — `8.8.8.8` against a table
holding only `10.0.0.0/8` — ends in `IndexError`. -/
theorem C5_no_match_witness :
    matching_routes [⟨1, 0x0A000000, 8, 0xFF000000⟩] 0x08080808 = [] ∧
      calc_dest_port [⟨1, 0x0A000000, 8, 0xFF000000⟩] 0x08080808
        = Except.error RouteFailure.indexError :=
  ⟨by decide, C5_no_match _ _ (by decide)⟩

/-- C6 counterexample: the token `10.0.0.0/8/9` holds two `/` separators,
yet the builder does not fail: the `/`-split has three parts, the
`len != 2` test therefore defaults the prefix to 32, and an entry is
produced. -/
theorem C6_counterexample :
    parse_line ("1, 10.0.0.0/8/9").toList = some ⟨1, 0x0A000000, 32, 0xFFFFFFFF⟩ := by
  decide

/-- C6 (amended): whenever the address token's `/`-split has a number of
parts other than two — no separator, or more than one — any entry the
builder produces carries prefix length 32; a multi-separator token is not
rejected. -/
theorem C6_default_prefix (line : List Char) (e : Entry)
    (h : parse_line line = some e)
    (hsp : (pySplit '/' (pyStrip ((pySplit ',' line).getD 1 []))).length ≠ 2) :
    e.prefixLen = 32 := by
  unfold parse_line at h
  split at h
  case h_2 => exact absurd h (by simp)
  case h_1 x p0 p1 ps heq =>
    rw [heq] at hsp
    simp only [List.getD_cons_succ, List.getD_cons_zero] at hsp
    rw [if_pos hsp] at h
    cases hip : parse_ipv4 (pyStrip ((pySplit '/' (pyStrip p1)).headD [])) with
    | none => rw [hip] at h; exact absurd h (by simp)
    | some ip =>
      rw [hip, Option.some_bind, Option.some_bind] at h
      cases hmk : calc_subnet_mask 32 with
      | none => rw [hmk] at h; exact absurd h (by simp)
      | some mask =>
        rw [hmk, Option.some_bind] at h
        cases hpt : pyInt (pyStrip p0) with
        | none => rw [hpt] at h; exact absurd h (by simp)
        | some port =>
          rw [hpt, Option.some_bind] at h
          simp only [Option.some.injEq] at h
          rw [← h]

/-- C6 witness: the spec's default-prefix scenario `3, 172.16.5.5` (no
separator) parses with prefix length 32. -/
theorem C6_default_prefix_witness :
    parse_line ("3, 172.16.5.5").toList = some ⟨3, 0xAC100505, 32, 0xFFFFFFFF⟩ ∧
      Entry.prefixLen ⟨3, 0xAC100505, 32, 0xFFFFFFFF⟩ = 32 :=
  ⟨by decide, C6_default_prefix ("3, 172.16.5.5").toList ⟨3, 0xAC100505, 32, 0xFFFFFFFF⟩
    (by decide) (by decide)⟩

/-- C7 counterexample: the table built from the line `1, 10.0.0.1/8` holds
one entry whose configured network `10.0.0.1` has host bits below its `/8`
mask; resolving the candidate equal to that configured address records no
match at all. -/
theorem C7_counterexample :
    read_setup_file [("1, 10.0.0.1/8").toList] = some [⟨1, 0x0A000001, 8, 0xFF000000⟩] ∧
      matching_routes [⟨1, 0x0A000001, 8, 0xFF000000⟩]
        (Entry.ip ⟨1, 0x0A000001, 8, 0xFF000000⟩) = [] := by
  decide

/-- C7 (amended): in a built table, resolving a candidate equal to an
entry's configured network address matches that entry provided the
configured address has no host bits below the entry's mask (masking the
address leaves it unchanged); with host bits set the entry is missed. -/
theorem C7_reflexive (lines : List (List Char)) (table : List Entry) (e : Entry)
    (_hbuild : read_setup_file lines = some table) (he : e ∈ table)
    (hcanon : apply_subnet_mask e.ip e.mask = e.ip) :
    e ∈ matching_routes table e.ip :=
  (mem_matching_routes table e.ip e).mpr ⟨he, hcanon⟩

/-- C7 witness: the canonical entry built from `1, 10.0.0.0/8` matches its
own network address. -/
theorem C7_reflexive_witness :
    (⟨1, 0x0A000000, 8, 0xFF000000⟩ : Entry)
      ∈ matching_routes [⟨1, 0x0A000000, 8, 0xFF000000⟩]
          (Entry.ip ⟨1, 0x0A000000, 8, 0xFF000000⟩) :=
  C7_reflexive [("1, 10.0.0.0/8").toList] [⟨1, 0x0A000000, 8, 0xFF000000⟩]
    ⟨1, 0x0A000000, 8, 0xFF000000⟩ (by decide) (by decide) (by decide)

/-- C8: a candidate with no matching route raises an uncaught `IndexError`
inside the forwarding loop, aborting the whole run: the loop result is the
error and the remaining candidates are never resolved, contrary to the
claim that processing continues per-candidate. -/
theorem C8_aborts (table : List Entry) (ip : Nat) (rest : List Nat)
    (h : matching_routes table ip = []) :
    forward_ips table (ip :: rest) = Except.error RouteFailure.indexError := by
  have hc := calc_dest_port_nil table ip h
  simp [forward_ips, hc]

/-- C8 witness: with table `10.0.0.0/8 -> port 1`, the run on candidates
`8.8.8.8, 10.1.2.3` aborts with `IndexError` at the first candidate, even
though the second candidate alone resolves to port 1. -/
theorem C8_aborts_witness :
    forward_ips [⟨1, 0x0A000000, 8, 0xFF000000⟩] [0x08080808, 0x0A010203]
        = Except.error RouteFailure.indexError ∧
      forward_ips [⟨1, 0x0A000000, 8, 0xFF000000⟩] [0x0A010203] = Except.ok [1] :=
  ⟨C8_aborts _ _ _ (by decide), by decide⟩

/-- C9: every entry of every successfully built table satisfies the mask
invariant: its mask is exactly the mask the code derives from its prefix
field, and that mask is a contiguous run of one-bits from the most
significant bit followed by zero-bits (the CIDR mask of some prefix in
`[0, 32]`), never a scattered pattern. -/
theorem C9_mask_invariant (lines : List (List Char)) (table : List Entry)
    (hbuild : read_setup_file lines = some table) :
    ∀ e ∈ table, calc_subnet_mask e.prefixLen = some e.mask ∧
      ∃ p, p ≤ 32 ∧ e.mask = standardMask p := by
  intro e he
  obtain ⟨l, _, hpl⟩ := read_setup_file_mem lines table hbuild e he
  have hm := parse_line_mask l e hpl
  exact ⟨hm, calc_subnet_mask_shape e.prefixLen e.mask hm⟩

/-- C9 witness: the entry built from `1, 10.0.0.0/8` carries the derived,
contiguous `/8` mask. -/
theorem C9_mask_invariant_witness :
    calc_subnet_mask (Entry.prefixLen ⟨1, 0x0A000000, 8, 0xFF000000⟩)
        = some (Entry.mask ⟨1, 0x0A000000, 8, 0xFF000000⟩) ∧
      ∃ p, p ≤ 32 ∧ Entry.mask ⟨1, 0x0A000000, 8, 0xFF000000⟩ = standardMask p :=
  C9_mask_invariant [("1, 10.0.0.0/8").toList] [⟨1, 0x0A000000, 8, 0xFF000000⟩] (by decide)
    ⟨1, 0x0A000000, 8, 0xFF000000⟩ (by decide)

/-- C10: applying a subnet mask is idempotent, and the result never has a
bit set that is clear in the mask. -/
theorem C10_idempotent (a m : Nat) (_ha : a < 2 ^ 32) (_hm : m < 2 ^ 32) :
    apply_subnet_mask (apply_subnet_mask a m) m = apply_subnet_mask a m ∧
      ∀ i, (apply_subnet_mask a m).testBit i = true → m.testBit i = true := by
  constructor
  · simp only [apply_subnet_mask]
    apply Nat.eq_of_testBit_eq
    intro i
    simp only [Nat.testBit_land]
    cases Nat.testBit a i <;> cases Nat.testBit m i <;> rfl
  · intro i h
    simp only [apply_subnet_mask, Nat.testBit_land, Bool.and_eq_true] at h
    exact h.2

/-- C10 witness: idempotence at the address `10.0.0.1` and the `/8`
mask. -/
theorem C10_idempotent_witness :
    (0x0A000001 : Nat) < 2 ^ 32 ∧ (0xFF000000 : Nat) < 2 ^ 32 ∧
      apply_subnet_mask (apply_subnet_mask 0x0A000001 0xFF000000) 0xFF000000
        = apply_subnet_mask 0x0A000001 0xFF000000 :=
  ⟨by norm_num, by norm_num,
    (C10_idempotent 0x0A000001 0xFF000000 (by norm_num) (by norm_num)).1⟩

end IPFwd
